import Mathlib

/-!
Verification development for the rentory repository: a rental-inventory
administration front-end (clients, items with variants, time-bounded orders)
over a reservation-availability and pricing engine.

The embedding below translates the relevant source functions:
- `TotalPriceCalculator` (orders/Common.tsx) — the form-side total computation
  that stores `payment_details.total`;
- `PaymentDetails` (orders/OrderShow.tsx) — the show-view payment computation;
- `handleRemove` (item_variants/List.tsx) — the remove-from-service action;
- `DateSection.handleStartChange` (orders/OrderCreate.tsx) — the order form's
  date handling;
- the availability query guard of `ItemRow` (orders/Common.tsx).

Parts of the engine that the repository only calls (availability calculation,
order status transitions, submission validation) are modelled from the spec,
as marked in their doc comments.

JavaScript numeric fields that may be absent are modelled as `Option ℚ`;
the JS idiom `x || d` on a possibly-absent numeric value is `Option.getD`.
`Math.round` is JS round-half-up, which coincides with Mathlib's `round`
on ℚ (both are ⌊x + 1/2⌋).
-/

namespace Rentory

/-- An order line as it appears in the form / order record
(`FormItem` in orders/Common.tsx): price and quantity may be absent. -/
structure FormItem where
  price : Option ℚ
  quantity : Option ℚ
deriving DecidableEq, Repr

/-- `payment_details` of an order record (fields used by the show view). -/
structure PaymentRec where
  total : Option ℚ
  deposit : Option ℚ
  paid : Option ℚ
deriving DecidableEq, Repr

/-- The empty object `{}` that `record.payment_details || {}` falls back to. -/
def emptyPaymentRec : PaymentRec := ⟨none, none, none⟩

/-- The order-record fields consumed by the pricing computations:
`payment_details`, `order_discount`, `items`, and `delivery_info.cost`. -/
structure OrderRecord where
  payment_details : Option PaymentRec
  order_discount : Option ℚ
  items : Option (List FormItem)
  delivery_cost : Option ℚ
deriving DecidableEq, Repr

/-- Subtotal of `TotalPriceCalculator` (orders/Common.tsx):
`(items || []).reduce((acc, it) => acc + (Number(it.price) || 0), 0)`.
Quantity is not consulted. -/
def tpcSubtotal (items : Option (List FormItem)) : ℚ :=
  (items.getD []).foldl (fun acc it => acc + it.price.getD 0) 0

/-- `TotalPriceCalculator` (orders/Common.tsx), the value it stores into
`payment_details.total`:
`discountedSubtotal = subtotal - (subtotal * (Number(discount) || 0)) / 100;`
`finalTotal = discountedSubtotal + (Number(deliveryCost) || 0)`. -/
def totalPriceCalculator (items : Option (List FormItem))
    (discount : Option ℚ) (deliveryCost : Option ℚ) : ℚ :=
  let subtotal := tpcSubtotal items
  let discountedSubtotal := subtotal - subtotal * discount.getD 0 / 100
  discountedSubtotal + deliveryCost.getD 0

/-- `itemsCost` of the show view's `PaymentDetails` (orders/OrderShow.tsx):
`items.reduce((sum, item) => sum + (item.price || 0) * (item.quantity || 1), 0)`
over `record.items || []`. -/
def showItemsCost (r : OrderRecord) : ℚ :=
  (r.items.getD []).foldl
    (fun sum it => sum + it.price.getD 0 * it.quantity.getD 1) 0

/-- `discountValue = Math.round((itemsCost * discountPercent) / 100)` with
`discountPercent = record.order_discount || 0` (orders/OrderShow.tsx). -/
def showDiscountValue (r : OrderRecord) : ℤ :=
  round (showItemsCost r * r.order_discount.getD 0 / 100)

/-- `discountedItemsCost = itemsCost - discountValue` — the value the show
view displays as "Total:" (orders/OrderShow.tsx). -/
def showDiscountedItemsCost (r : OrderRecord) : ℚ :=
  showItemsCost r - showDiscountValue r

/-- `paid = payment.paid || 0` with `payment = record.payment_details || {}`. -/
def showPaid (r : OrderRecord) : ℚ :=
  ((r.payment_details.getD emptyPaymentRec).paid).getD 0

/-- `amountDue = discountedItemsCost - paid` (orders/OrderShow.tsx). -/
def showAmountDue (r : OrderRecord) : ℚ :=
  showDiscountedItemsCost r - showPaid r

/-- A JavaScript number: either an actual numeric value or NaN. -/
inductive JSNum where
  | num (q : ℚ)
  | nan
deriving DecidableEq, Repr

/-- JS addition of a number and a possibly-undefined number:
`x + undefined` evaluates to NaN. -/
def jsAddOpt (x : ℚ) (y : Option ℚ) : JSNum :=
  match y with
  | some q => .num (x + q)
  | none => .nan

/-- `to_pay = amountDue + payment.deposit` (orders/OrderShow.tsx) — note the
deposit is read off `payment` without a default. -/
def showToPay (r : OrderRecord) : JSNum :=
  jsAddOpt (showAmountDue r) (r.payment_details.getD emptyPaymentRec).deposit

/-- Pricing Engine steps exactly as the spec states them (§4.4), for
comparison with the source computations: itemsCost sums price × quantity
over the lines. Absent prices and quantities take their form defaults
(0 and 1 respectively). -/
def spec_itemsCost (lines : List FormItem) : ℚ :=
  (lines.map (fun l => l.price.getD 0 * l.quantity.getD 1)).sum

/-- Spec §4.4: `discountValue = round(itemsCost × order_discount / 100)`,
round-half-up. -/
def spec_discountValue (lines : List FormItem) (d : ℚ) : ℤ :=
  round (spec_itemsCost lines * d / 100)

/-- Spec §4.4: `total = (itemsCost − discountValue) + delivery_info.cost`. -/
def spec_computeTotal (lines : List FormItem) (d : ℚ) (deliveryCost : ℚ) : ℚ :=
  spec_itemsCost lines - spec_discountValue lines d + deliveryCost

/-- Order statuses (`ORDER_STATUS` in components/Common.tsx). -/
inductive OrderStatus where
  | booked
  | issued
  | returned
  | canceled
  | done
deriving DecidableEq, Repr

/-- Variant statuses (`VARIANT_STATUS` in components/Common.tsx). -/
inductive VariantStatus where
  | available
  | repair
  | cleaning
  | unavailable
deriving DecidableEq, Repr

/-- The error taxonomy of spec §7. -/
inductive EngineError where
  | NotFound
  | InvalidRange
  | MissingParameter
  | Conflict
  | InsufficientStock
  | InvalidTransition
deriving DecidableEq, Repr

/-- Modelled from the spec: a stock hold, i.e. an order line's consumption of
a variant over the order's `[start_time, end_time)` window together with the
order's status (§3, glossary "Hold"). Dates are day numbers (date-only
granularity). The backend Reservation Ledger is not part of the visible
repository source. -/
structure Hold where
  start_time : ℤ
  end_time : ℤ
  status : OrderStatus
deriving DecidableEq, Repr

/-- Modelled from the spec (§4.2): an order consumes stock unless its status
is canceled, returned or done. -/
def holdActive : OrderStatus → Bool
  | .canceled => false
  | .returned => false
  | .done => false
  | _ => true

/-- Modelled from the spec (§4.2): the number of active holds on a variant
whose half-open window intersects the requested `[s, e)`
(`order.start < end AND order.end > start`). -/
def overlapCount (holds : List Hold) (s e : ℤ) : ℕ :=
  (holds.filter
    (fun h => holdActive h.status && (decide (h.start_time < e) && decide (h.end_time > s)))).length

/-- Result of an availability check: `remaining = stock_quantity − overlapCount`
and `available = remaining > 0` (§4.2). -/
structure AvailabilityResult where
  available : Bool
  remaining : ℤ
deriving DecidableEq, Repr

/-- Modelled from the spec (§4.2): `checkAvailability(variantId, start, end)`.
The repository's data provider only forwards the query
(`getItemWithAvailability` in dataProvider.ts); the calculator itself is
backend code outside the visible source. Open-ended queries (a missing
bound) fail with `MissingParameter`; malformed or zero-length intervals fail
with `InvalidRange`; a variant whose status is not `available` is unavailable
regardless of stock; otherwise `remaining = stock_quantity − overlapCount`. -/
def checkAvailability (stock : ℕ) (vstatus : VariantStatus) (holds : List Hold)
    (start_time end_time : Option ℤ) : Except EngineError AvailabilityResult :=
  match start_time, end_time with
  | none, _ => .error .MissingParameter
  | some _, none => .error .MissingParameter
  | some s, some e =>
    if e ≤ s then .error .InvalidRange
    else if vstatus ≠ .available then .ok ⟨false, 0⟩
    else
      let c : ℤ := overlapCount holds s e
      .ok ⟨decide ((stock : ℤ) - c > 0), (stock : ℤ) - c⟩

/-- Modelled from the spec (§4.3): the allowed edges of the Order status
machine — booked→issued, booked→canceled, issued→returned, returned→done,
booked→done. The repository only carries the status vocabulary
(`ORDER_STATUS`); the transition engine is backend code outside the visible
source. -/
def allowedOrderEdge : OrderStatus → OrderStatus → Bool
  | .booked, .issued => true
  | .booked, .canceled => true
  | .issued, .returned => true
  | .returned, .done => true
  | .booked, .done => true
  | _, _ => false

/-- Modelled from the spec (§4.3): applying a status transition — any edge
outside the allowed set fails with `InvalidTransition`. -/
def applyOrderTransition (src dst : OrderStatus) : Except EngineError OrderStatus :=
  if allowedOrderEdge src dst then .ok dst else .error .InvalidTransition

/-- Validation errors of spec §7 ("missing required field, out-of-range
discount"). -/
inductive ValidationError where
  | MissingRequiredField
  | OutOfRangeDiscount
deriving DecidableEq, Repr

/-- Discount percentages must lie in 0–100 (§3, client and order discount). -/
def discountInRange (d : ℚ) : Bool :=
  decide (0 ≤ d) && decide (d ≤ 100)

/-- Modelled from the spec (§7): validation of a client or order submission
runs before any write; an out-of-range discount is a validation error. The
enforcement pipeline is backend code outside the visible source (the UI only
declares min=0/max=100 on the discount inputs). -/
def validateDiscount (d : ℚ) : Option ValidationError :=
  if discountInRange d then none else some .OutOfRangeDiscount

/-- Modelled from the spec (§7): a submission either fails validation —
returning an error and leaving the stored state untouched — or appends the
new record to the store. -/
def applySubmission {α : Type} (db : List α) (rec : α) (d : ℚ) :
    Except ValidationError (List α) :=
  match validateDiscount d with
  | some err => .error err
  | none => .ok (db ++ [rec])

/-- A variant row as handled by the maintenance list
(item_variants/List.tsx): id and status are the fields the remove action
touches. -/
structure VariantRecord where
  id : ℕ
  item_id : ℕ
  status : VariantStatus
deriving DecidableEq, Repr

/-- `handleRemove` (item_variants/List.tsx): issues
`update("variants", { id: record.id, data: { status: "available" } })` —
the record's status is set to `available` with no check on the current
status or anything else. -/
def handleRemove (r : VariantRecord) : VariantRecord :=
  { r with status := .available }

/-- The guard in `ItemRow` (orders/Common.tsx): the availability request is
issued only under `if (itemId && from && to)`; otherwise no request is made. -/
def itemRowFetches (itemId : Option ℕ) (fromTime toTime : Option ℤ) : Bool :=
  itemId.isSome && fromTime.isSome && toTime.isSome

/-- The date fields of the order form (orders/OrderCreate.tsx), at day
granularity; the empty string (no date chosen) is `none`. -/
structure DateFormState where
  start_time : Option ℤ
  end_time : Option ℤ
deriving DecidableEq, Repr

/-- `handleStartChange` of `DateSection` (orders/OrderCreate.tsx): stores the
new start value (or empty), and clears `end_time` exactly when
`endTime && dayjsValue && dayjs(endTime).isBefore(dayjsValue, "day")`,
i.e. when an end date is set, the new start value is non-null, and the end
date is strictly before it at day granularity. -/
def handleStartChange (value : Option ℤ) (st : DateFormState) : DateFormState :=
  let st' : DateFormState := { st with start_time := value }
  match st.end_time, value with
  | some e, some s => if e < s then { st' with end_time := none } else st'
  | _, _ => st'

/-! ## Helper lemmas -/

/-- A left fold that adds `f x` at each step computes the starting value plus
the sum of the mapped list. -/
theorem foldl_add_eq_sum {α : Type} (f : α → ℚ) :
    ∀ (xs : List α) (c : ℚ), xs.foldl (fun acc x => acc + f x) c = c + (xs.map f).sum
  | [], c => by simp
  | x :: xs, c => by
    rw [List.foldl_cons, foldl_add_eq_sum f xs (c + f x), List.map_cons,
      List.sum_cons, add_assoc]

/-- The form subtotal is the sum of the line prices (quantity not consulted). -/
theorem tpcSubtotal_eq_sum (items : Option (List FormItem)) :
    tpcSubtotal items = ((items.getD []).map (fun it => it.price.getD 0)).sum := by
  rw [tpcSubtotal, foldl_add_eq_sum, zero_add]

/-- The show view's items cost is the sum of price × quantity. -/
theorem showItemsCost_eq_sum (r : OrderRecord) :
    showItemsCost r =
      ((r.items.getD []).map (fun it => it.price.getD 0 * it.quantity.getD 1)).sum := by
  rw [showItemsCost, foldl_add_eq_sum, zero_add]

/-- When every line's effective quantity is 1, the spec's items cost reduces
to the plain sum of prices. -/
theorem spec_itemsCost_of_unit_quantities (lines : List FormItem)
    (hq : ∀ l ∈ lines, l.quantity.getD 1 = 1) :
    spec_itemsCost lines = (lines.map (fun l => l.price.getD 0)).sum := by
  unfold spec_itemsCost
  congr 1
  apply List.map_congr_left
  intro l hl
  rw [hq l hl, mul_one]

/-! ## Claim theorems -/

/-- Claim C1 (corrected), counterexample: the stored `payment_details.total`
does not follow the spec's pricing steps. On an order with a single line of
price 10 and quantity 2, no discount and no delivery cost, the stored total
(computed by `TotalPriceCalculator`, which ignores quantity) is 10 while the
spec's steps give 20. -/
theorem totalPriceCalculator_deviates_from_spec_steps :
    totalPriceCalculator (some [⟨some 10, some 2⟩]) (some 0) (some 0) ≠
      spec_computeTotal [⟨some 10, some 2⟩] 0 0 := by
  norm_num [totalPriceCalculator, tpcSubtotal, spec_computeTotal, spec_itemsCost,
    spec_discountValue]

/-- Claim C1 (amended): the stored `payment_details.total` sums line prices
without multiplying by quantity and applies the discount percentage without
rounding, then adds the delivery cost. It agrees with the spec's steps
exactly when every line's effective quantity is 1 and the discount value
`itemsCost × discount / 100` is already an integer. -/
theorem totalPriceCalculator_eq_spec_on_unit_quantities
    (lines : List FormItem) (d delivery : ℚ)
    (hq : ∀ l ∈ lines, l.quantity.getD 1 = 1)
    (hint : ∃ k : ℤ, spec_itemsCost lines * d / 100 = (k : ℚ)) :
    totalPriceCalculator (some lines) (some d) (some delivery) =
      spec_computeTotal lines d delivery := by
  obtain ⟨k, hk⟩ := hint
  have hsub : tpcSubtotal (some lines) = spec_itemsCost lines := by
    rw [tpcSubtotal_eq_sum, spec_itemsCost_of_unit_quantities lines hq]
    rfl
  have hdv : spec_discountValue lines d = k := by
    rw [spec_discountValue, hk, round_intCast]
  rw [totalPriceCalculator, spec_computeTotal, hdv, hsub]
  simp only [Option.getD_some]
  rw [hk]

/-- Witness for the amended C1 theorem at a concrete order: one line of
price 100 and quantity 1, discount 10 %, delivery cost 5 — both computations
give 95. -/
theorem totalPriceCalculator_eq_spec_witness :
    totalPriceCalculator (some [⟨some 100, some 1⟩]) (some 10) (some 5) =
      spec_computeTotal [⟨some 100, some 1⟩] 10 5 :=
  totalPriceCalculator_eq_spec_on_unit_quantities [⟨some 100, some 1⟩] 10 5
    (by intro l hl; simp only [List.mem_singleton] at hl; subst hl; rfl)
    ⟨10, by norm_num [spec_itemsCost]⟩

/-- Claim C2: an existing order line consumes one unit for the requested
window `[s, e)` exactly when the order is active (status not canceled,
returned or done) and the half-open intervals intersect
(`order.start < e` and `order.end > s`); with day numbers 1 = 2024-01-01,
5 = 2024-01-05, 6 = 2024-01-06, 10 = 2024-01-10, the adjacent ranges
`[1, 5)` and `[5, 10)` on a variant with stock 1 do not conflict, while
`[1, 6)` and `[5, 10)` do. -/
theorem hold_overlap_semantics :
    (∀ (h : Hold) (hs : List Hold) (s e : ℤ),
      overlapCount (h :: hs) s e =
        overlapCount hs s e +
          (if holdActive h.status = true ∧ h.start_time < e ∧ h.end_time > s
            then 1 else 0))
    ∧ checkAvailability 1 .available [⟨1, 5, .booked⟩] (some 5) (some 10) =
        .ok ⟨true, 1⟩
    ∧ checkAvailability 1 .available [⟨1, 6, .booked⟩] (some 5) (some 10) =
        .ok ⟨false, 0⟩ := by
  refine ⟨fun h hs s e => ?_, rfl, rfl⟩
  by_cases hc : holdActive h.status = true ∧ h.start_time < e ∧ h.end_time > s
  · obtain ⟨h1, h2, h3⟩ := hc
    simp [overlapCount, List.filter_cons, h1, h2, h3, Nat.add_comm]
  · rw [if_neg hc]
    have hb : (holdActive h.status &&
        (decide (h.start_time < e) && decide (h.end_time > s))) = false := by
      rcases Decidable.not_and_iff_or_not.mp hc with h1 | h23
      · simp [Bool.and_eq_false_iff, h1]
      · rcases Decidable.not_and_iff_or_not.mp h23 with h2 | h3
        · simp [Bool.and_eq_false_iff, h2]
        · simp [Bool.and_eq_false_iff, h3]
    simp [overlapCount, List.filter_cons, hb]

/-- Claim C3: the Order status machine admits exactly the edges
booked→issued, booked→canceled, issued→returned, returned→done and
booked→done; canceled and done are terminal — every transition out of them
fails with `InvalidTransition`. -/
theorem order_status_machine_edges :
    (∀ a b : OrderStatus, applyOrderTransition a b = .ok b ↔
      (a = .booked ∧ b = .issued) ∨ (a = .booked ∧ b = .canceled) ∨
      (a = .issued ∧ b = .returned) ∨ (a = .returned ∧ b = .done) ∨
      (a = .booked ∧ b = .done))
    ∧ (∀ b, applyOrderTransition .canceled b = .error .InvalidTransition)
    ∧ (∀ b, applyOrderTransition .done b = .error .InvalidTransition) := by
  refine ⟨fun a b => ?_, fun b => ?_, fun b => ?_⟩
  · cases a <;> cases b <;> simp [applyOrderTransition, allowedOrderEdge]
  · cases b <;> rfl
  · cases b <;> rfl

/-- Claim C4: whenever `checkAvailability` answers a query and the ledger
satisfies the spec's write-time invariant (at most `stock_quantity` active
overlapping holds, §5), the returned `remaining` is at least zero and never
exceeds the variant's `stock_quantity`. -/
theorem checkAvailability_remaining_bounds (stock : ℕ) (vstatus : VariantStatus)
    (holds : List Hold) (s e : ℤ) (res : AvailabilityResult)
    (hinv : overlapCount holds s e ≤ stock)
    (hok : checkAvailability stock vstatus holds (some s) (some e) = .ok res) :
    0 ≤ res.remaining ∧ res.remaining ≤ (stock : ℤ) := by
  simp only [checkAvailability] at hok
  split at hok
  · exact absurd hok (by simp)
  · split at hok
    · cases hok
      exact ⟨le_refl 0, Int.ofNat_nonneg stock⟩
    · cases hok
      constructor
      · have : (overlapCount holds s e : ℤ) ≤ (stock : ℤ) := by exact_mod_cast hinv
        exact sub_nonneg.mpr this
      · have : (0 : ℤ) ≤ (overlapCount holds s e : ℤ) := Int.ofNat_nonneg _
        exact sub_le_self (stock : ℤ) this

/-- Witness for C4: stock 1, empty ledger, query `[0, 1)` — the answer is
`remaining = 1`, inside the bounds. -/
theorem checkAvailability_remaining_bounds_witness :
    0 ≤ (AvailabilityResult.mk true 1).remaining ∧
      (AvailabilityResult.mk true 1).remaining ≤ ((1 : ℕ) : ℤ) :=
  checkAvailability_remaining_bounds 1 .available [] 0 1 ⟨true, 1⟩
    (by norm_num [overlapCount]) rfl

/-- Claim C5 (corrected), counterexample: the total stored by the create/edit
path and the total displayed by the show view are not the same computation.
On a record with a single line of price 10 and quantity 3 (no discount, no
delivery cost), the form stores 10 while the show view displays 30. -/
theorem form_total_ne_show_total :
    totalPriceCalculator (some [⟨some 10, some 3⟩]) none none ≠
      showDiscountedItemsCost ⟨none, none, some [⟨some 10, some 3⟩], none⟩ := by
  norm_num [totalPriceCalculator, tpcSubtotal, showDiscountedItemsCost,
    showItemsCost, showDiscountValue]

/-- Claim C5 (amended): the create/edit path (sum of line prices, quantity
ignored, unrounded percentage discount, delivery cost added) and the show
view (sum of price × quantity, rounded discount subtracted, delivery cost
omitted) are two distinct computations; the computed total is written into
the form state rather than derived server-side. They agree exactly on
records whose lines all have effective quantity 1, whose discount value is
already an integer, and whose effective delivery cost is zero. -/
theorem form_total_eq_show_total_on_unit_quantities (r : OrderRecord)
    (hq : ∀ l ∈ r.items.getD [], l.quantity.getD 1 = 1)
    (hint : ∃ k : ℤ, showItemsCost r * r.order_discount.getD 0 / 100 = (k : ℚ))
    (hdel : r.delivery_cost.getD 0 = 0) :
    totalPriceCalculator r.items r.order_discount r.delivery_cost =
      showDiscountedItemsCost r := by
  obtain ⟨k, hk⟩ := hint
  have hsub : tpcSubtotal r.items = showItemsCost r := by
    rw [tpcSubtotal_eq_sum, showItemsCost_eq_sum]
    congr 1
    apply List.map_congr_left
    intro l hl
    rw [hq l hl, mul_one]
  have hdv : showDiscountValue r = k := by
    rw [showDiscountValue, hk, round_intCast]
  rw [totalPriceCalculator, showDiscountedItemsCost, hdv, hsub, hdel, hk, add_zero]

/-- Witness for the amended C5 theorem at a concrete record: one line of
price 50 with absent quantity, discount 10 %, absent delivery cost — both
computations give 45. -/
theorem form_total_eq_show_total_witness :
    totalPriceCalculator (some [⟨some 50, none⟩]) (some 10) none =
      showDiscountedItemsCost ⟨none, some 10, some [⟨some 50, none⟩], none⟩ :=
  form_total_eq_show_total_on_unit_quantities ⟨none, some 10, some [⟨some 50, none⟩], none⟩
    (by intro l hl; simp only [Option.getD_some, List.mem_singleton] at hl; subst hl; rfl)
    ⟨5, by norm_num [showItemsCost]⟩
    rfl

/-- Claim C6: an availability query with a zero-length interval fails with
`InvalidRange`; a query missing either bound fails with `MissingParameter`;
and the order form's `ItemRow` issues an availability request only when both
bounds (and the item id) are present. -/
theorem availability_query_bounds_validation :
    (∀ (stock : ℕ) (vs : VariantStatus) (holds : List Hold) (s : ℤ),
      checkAvailability stock vs holds (some s) (some s) = .error .InvalidRange)
    ∧ (∀ (stock : ℕ) (vs : VariantStatus) (holds : List Hold) (e : Option ℤ),
      checkAvailability stock vs holds none e = .error .MissingParameter)
    ∧ (∀ (stock : ℕ) (vs : VariantStatus) (holds : List Hold) (s : ℤ),
      checkAvailability stock vs holds (some s) none = .error .MissingParameter)
    ∧ (∀ (itemId : Option ℕ) (fromTime toTime : Option ℤ),
      itemRowFetches itemId fromTime toTime = true →
        fromTime.isSome = true ∧ toTime.isSome = true) := by
  refine ⟨fun stock vs holds s => ?_, fun stock vs holds e => ?_,
    fun stock vs holds s => ?_, fun itemId fromTime toTime hfetch => ?_⟩
  · simp [checkAvailability]
  · rfl
  · rfl
  · simp only [itemRowFetches, Bool.and_eq_true] at hfetch
    exact ⟨hfetch.1.2, hfetch.2⟩

/-- Witness for C6's request guard: with item id 1 and both bounds 3 and 7
present, the guard passes and both bounds are indeed present. -/
theorem availability_query_bounds_validation_witness :
    (some (3 : ℤ)).isSome = true ∧ (some (7 : ℤ)).isSome = true :=
  availability_query_bounds_validation.2.2.2 (some 1) (some 3) (some 7) rfl

/-- Claim C7: a submission whose discount percentage lies outside 0–100 is
rejected as a validation error, and no write occurs — the stored state is
never replaced by a new one. -/
theorem out_of_range_discount_rejected_before_write {α : Type} (db : List α)
    (rec : α) (d : ℚ) (hd : d < 0 ∨ 100 < d) :
    applySubmission db rec d = .error .OutOfRangeDiscount ∧
      ∀ db' : List α, applySubmission db rec d ≠ .ok db' := by
  have hfalse : discountInRange d = false := by
    rcases hd with h | h
    · simp [discountInRange, not_le.mpr h]
    · simp [discountInRange, not_le.mpr h]
  have herr : applySubmission db rec d = .error .OutOfRangeDiscount := by
    rw [applySubmission, validateDiscount, hfalse]
    rfl
  exact ⟨herr, fun db' hok => by rw [herr] at hok; exact Except.noConfusion hok⟩

/-- Witness for C7: a discount of 150 on a submission against the empty store
is rejected with `OutOfRangeDiscount`. -/
theorem out_of_range_discount_rejected_witness :
    applySubmission ([] : List ℕ) 0 150 = .error .OutOfRangeDiscount :=
  (out_of_range_discount_rejected_before_write [] 0 150 (Or.inr (by norm_num))).1

/-- Claim C8: the remove-from-service action sets the variant's status to
`available` unconditionally — for every record, whatever its current status,
the update carries `status = available` and touches nothing else. -/
theorem handleRemove_unconditionally_available (r : VariantRecord) :
    (handleRemove r).status = .available ∧ (handleRemove r).id = r.id ∧
      (handleRemove r).item_id = r.item_id :=
  ⟨rfl, rfl, rfl⟩

/-- Claim C9: in the show view's payment computation every monetary input
except the deposit is defaulted, but `to_pay = amountDue + payment.deposit`
reads the deposit without a guard — on any record whose deposit is absent the
displayed value is NaN, not a number. -/
theorem showToPay_nan_of_missing_deposit (r : OrderRecord)
    (h : (r.payment_details.getD emptyPaymentRec).deposit = none) :
    showToPay r = .nan ∧ ∀ q : ℚ, showToPay r ≠ .num q := by
  constructor
  · rw [showToPay, h]
    rfl
  · intro q hq
    rw [showToPay, h] at hq
    simp [jsAddOpt] at hq

/-- Witness for C9: the record with no payment details at all displays NaN. -/
theorem showToPay_nan_witness :
    showToPay ⟨none, none, none, none⟩ = .nan :=
  (showToPay_nan_of_missing_deposit ⟨none, none, none, none⟩ rfl).1

/-- Claim C10: on every start-date change the order form stores the new start
value, clears the end date exactly when one is set and falls strictly before
the new start (at day granularity), leaves it unchanged otherwise, and hence
preserves the invariant that the end date is either empty or not before the
start date. -/
theorem handleStartChange_end_date_invariant (v : Option ℤ) (st : DateFormState) :
    (handleStartChange v st).start_time = v
    ∧ (∀ e s : ℤ, st.end_time = some e → v = some s → e < s →
        (handleStartChange v st).end_time = none)
    ∧ (∀ e s : ℤ, st.end_time = some e → v = some s → ¬ e < s →
        (handleStartChange v st).end_time = st.end_time)
    ∧ (v = none → (handleStartChange v st).end_time = st.end_time)
    ∧ (st.end_time = none → (handleStartChange v st).end_time = none)
    ∧ (∀ s e : ℤ, (handleStartChange v st).start_time = some s →
        (handleStartChange v st).end_time = some e → s ≤ e) := by
  obtain ⟨st_start, st_end⟩ := st
  cases st_end with
  | none =>
    cases v with
    | none => exact ⟨rfl, by simp, by simp, fun _ => rfl, fun _ => rfl, by simp [handleStartChange]⟩
    | some s => exact ⟨rfl, by simp, by simp, by simp, fun _ => rfl, by simp [handleStartChange]⟩
  | some e =>
    cases v with
    | none => exact ⟨rfl, by simp, by simp, fun _ => rfl, by simp, by simp [handleStartChange]⟩
    | some s =>
      by_cases hlt : e < s
      · refine ⟨by simp [handleStartChange, hlt], fun e' s' he hv _ => ?_,
          fun e' s' he hv hnlt => ?_, by simp, by simp, ?_⟩
        · simp [handleStartChange, hlt]
        · cases he
          cases hv
          exact absurd hlt hnlt
        · intro s' e' _ hend
          simp [handleStartChange, hlt] at hend
      · refine ⟨by simp [handleStartChange, hlt], fun e' s' he hv hlt' => ?_,
          fun e' s' he hv _ => ?_, by simp, by simp, ?_⟩
        · cases he
          cases hv
          exact absurd hlt' hlt
        · simp [handleStartChange, hlt]
        · intro s' e' hstart hend
          simp [handleStartChange, hlt] at hstart hend
          rw [← hstart, ← hend]
          exact le_of_not_lt hlt

/-- Witness for C10: with end date at day 3, changing the start to day 5
clears the end date. -/
theorem handleStartChange_end_date_witness :
    (handleStartChange (some 5) ⟨some 1, some 3⟩).end_time = none :=
  (handleStartChange_end_date_invariant (some 5) ⟨some 1, some 3⟩).2.1 3 5 rfl rfl
    (by norm_num)

end Rentory
